import Mathlib

/-!
Verification of the depot Docker Registry V2 core (internal/docker,
internal/storage, internal/api, internal/repository) against its
specification.

The Go code is shallowly embedded as pure Lean functions over an explicit
registry state.  Bytes are naturals; byte buffers are lists.  The SHA-256
hex digest computation `fmt.Sprintf("%x", sha256.Sum256(data))` is
abstracted as a function parameter `hashHex`; every theorem is proved for
all such functions, hence in particular for the real SHA-256.  Likewise the
JSON decoding `json.Unmarshal(body, &manifest)` is abstracted as a
parameter `jsonParse` returning the decoded `MediaType` field (the only
decoded field the handlers read).  Filesystem I/O errors are not modelled:
the `FileStorage` backend is embedded as a total map update, reflecting its
behaviour on the non-error path, and the documented
treatment by `FileStorage.Delete` of a missing file as success (storage.go:62-69) is baked in.
-/

namespace Depot

/-- A byte, modelled as a natural number. -/
abbrev Byte := Nat

/-- A byte buffer (Go `[]byte`). -/
abbrev Bytes := List Byte

/-- Go `strings.HasPrefix(s, "sha256:")`, the digest-reference test used by
the handlers.  Defined over the character list so that it evaluates by
kernel reduction. -/
def isDigestRef (s : String) : Bool :=
  "sha256:".data.isPrefixOf s.data

/-- Go `path.Join(a, b)` for the components the registry actually joins
("blobs" or "manifests" with a digest or reference): plain concatenation
with "/".  Dot-segment cleaning of `path.Clean` is not modelled; it is the
identity on every path the registry constructs. -/
def pathJoin (a b : String) : String := a ++ "/" ++ b

/-- The manifest record held in the in-memory index: the fields of the Go
`Manifest` struct that the handlers read after storing (`MediaType` and
`Raw`).  The other decoded fields are never consulted again. -/
structure Manifest where
  mediaType : String
  raw : Bytes
deriving DecidableEq, Repr

/-- Result of a successful `json.Unmarshal(body, &manifest)`: the decoded
`MediaType` field, the only decoded field `handleManifestPut` reads. -/
structure ParsedManifest where
  mediaType : String
deriving DecidableEq, Repr

/-- An in-progress blob upload (Go `Upload`).  `StartedAt` is omitted: it is
written once and never read. -/
structure Upload where
  uuid : String
  repoName : String
  size : Nat
  data : Bytes
deriving DecidableEq, Repr

/-- The mutable state of one `Registry` instance: the two-level manifest
index `repo -> reference -> manifest`, the upload-session table
`uuid -> upload`, and the storage backend keyed by `(repo, path)`. -/
structure RegState where
  manifests : String → Option (String → Option Manifest)
  uploads : String → Option Upload
  storage : String → String → Option Bytes

/-- The state of a freshly constructed `Registry` (NewRegistry) over an
empty storage backend. -/
def initState : RegState where
  manifests := fun _ => none
  uploads := fun _ => none
  storage := fun _ _ => none

/-- The observable part of an HTTP response: status code, V2 error code,
body, and the headers the handlers set. -/
structure HttpOut where
  status : Nat
  errorCode : Option String := none
  body : Bytes := []
  contentType : Option String := none
  location : Option String := none
  dockerContentDigest : Option String := none
  dockerUploadUUID : Option String := none
deriving DecidableEq, Repr

/-- Insert `content` at key `(repo, p)` of a storage map (the non-error
path of `FileStorage.Store`). -/
def storeInsert (st : String → String → Option Bytes) (repo p : String)
    (content : Bytes) : String → String → Option Bytes :=
  fun r q => if r = repo ∧ q = p then some content else st r q

/-- Remove key `(repo, p)` from a storage map (`FileStorage.Delete`, which
succeeds whether or not the file exists). -/
def storeRemove (st : String → String → Option Bytes) (repo p : String) :
    String → String → Option Bytes :=
  fun r q => if r = repo ∧ q = p then none else st r q

/-- Whether `repo` appears in the `repositories` array produced by
`handleCatalog` (GET /v2/_catalog): exactly the keys of `r.manifests`.
Iteration order of the Go map is not modelled, only membership. -/
def catalogHas (s : RegState) (repo : String) : Bool :=
  (s.manifests repo).isSome

/-- Whether `ref` appears in the `tags` array produced by `handleTagsList`
(GET /v2/{name}/tags/list): references bound for `name` whose string does
not begin with "sha256:". -/
def tagsListHas (s : RegState) (name ref : String) : Bool :=
  match s.manifests name with
  | some repoManifests => (repoManifests ref).isSome && !(isDigestRef ref)
  | none => false

/-- The binding the manifest index holds for `(name, ref)`. -/
def manifestBinding (s : RegState) (name ref : String) : Option Manifest :=
  match s.manifests name with
  | some repoManifests => repoManifests ref
  | none => none

/-- Go `handleManifestGet` (GET /v2/{name}/manifests/{reference}); the
digest header is `fmt.Sprintf("sha256:%x", sha256.Sum256(manifest.Raw))`
with the hex formatting abstracted as `hashHex`. -/
def handleManifestGet (hashHex : Bytes → String) (s : RegState)
    (name reference : String) : HttpOut :=
  match s.manifests name with
  | none => { status := 404, errorCode := some "MANIFEST_UNKNOWN" }
  | some repoManifests =>
    match repoManifests reference with
    | none => { status := 404, errorCode := some "MANIFEST_UNKNOWN" }
    | some manifest =>
      { status := 200
        body := manifest.raw
        contentType := some manifest.mediaType
        dockerContentDigest := some ("sha256:" ++ hashHex manifest.raw) }

/-- Go `handleManifestPut` (PUT /v2/{name}/manifests/{reference}).  The body
has already been read; `contentTypeHeader` is the Content-Type request
header ("" when absent).  On parse failure: 400 MANIFEST_INVALID.  The
record is stored under `reference`, and additionally under its digest when
`reference` is not itself a digest string; the raw body is mirrored into
the storage backend at `manifests/<digest>` (always succeeding in the
model, so the MANIFEST_BLOB_UNKNOWN 500 branch is unreachable). -/
def handleManifestPut (hashHex : Bytes → String)
    (jsonParse : Bytes → Option ParsedManifest) (s : RegState)
    (name reference : String) (body : Bytes) (contentTypeHeader : String) :
    HttpOut × RegState :=
  match jsonParse body with
  | none => ({ status := 400, errorCode := some "MANIFEST_INVALID" }, s)
  | some parsed =>
    let contentType :=
      if contentTypeHeader = "" then parsed.mediaType else contentTypeHeader
    let digest := "sha256:" ++ hashHex body
    let record : Manifest := { mediaType := contentType, raw := body }
    let repoManifests :=
      match s.manifests name with
      | some m => m
      | none => fun _ => none
    let withRef := fun ref =>
      if ref = reference then some record else repoManifests ref
    let withDigest :=
      if isDigestRef reference then withRef
      else fun ref => if ref = digest then some record else withRef ref
    let s1 : RegState :=
      { s with manifests := fun n =>
          if n = name then some withDigest else s.manifests n }
    let s2 : RegState :=
      { s1 with storage :=
          storeInsert s1.storage name (pathJoin "manifests" digest) body }
    ({ status := 201
       location := some ("/v2/" ++ name ++ "/manifests/" ++ digest)
       dockerContentDigest := some digest }, s2)

/-- Go `handleManifestDelete` (DELETE /v2/{name}/manifests/{reference}):
removes the single binding for `reference`, then best-effort deletes
`manifests/<reference>` from storage. -/
def handleManifestDelete (s : RegState) (name reference : String) :
    HttpOut × RegState :=
  match s.manifests name with
  | none => ({ status := 404, errorCode := some "MANIFEST_UNKNOWN" }, s)
  | some repoManifests =>
    match repoManifests reference with
    | none => ({ status := 404, errorCode := some "MANIFEST_UNKNOWN" }, s)
    | some _ =>
      let repoManifests1 := fun ref =>
        if ref = reference then none else repoManifests ref
      let s1 : RegState :=
        { s with manifests := fun n =>
            if n = name then some repoManifests1 else s.manifests n }
      let s2 : RegState :=
        { s1 with storage :=
            storeRemove s1.storage name (pathJoin "manifests" reference) }
      ({ status := 202 }, s2)

/-- Go `handleBlobGet` (GET /v2/{name}/blobs/{digest}); `Exists` and
`Retrieve` both consult the same storage map. -/
def handleBlobGet (s : RegState) (name digest : String) : HttpOut :=
  match s.storage name (pathJoin "blobs" digest) with
  | none => { status := 404, errorCode := some "BLOB_UNKNOWN" }
  | some content =>
    { status := 200
      body := content
      contentType := some "application/octet-stream"
      dockerContentDigest := some digest }

/-- Go `handleBlobDelete` (DELETE /v2/{name}/blobs/{digest}).
`FileStorage.Delete` returns nil also when the file does not exist, so the
BLOB_UNKNOWN branch of the handler is reachable only on other I/O errors, which
are outside the model: the result is always 202. -/
def handleBlobDelete (s : RegState) (name digest : String) :
    HttpOut × RegState :=
  ({ status := 202 },
   { s with storage := storeRemove s.storage name (pathJoin "blobs" digest) })

/-- Go `handleBlobUploadPost` (POST /v2/{name}/blobs/uploads/); the fresh
`uuid.New().String()` value is passed in as `uuid`. -/
def handleBlobUploadPost (s : RegState) (name uuid : String) :
    HttpOut × RegState :=
  let upload : Upload := { uuid := uuid, repoName := name, size := 0, data := [] }
  ({ status := 202
     location := some ("/v2/" ++ name ++ "/blobs/uploads/" ++ uuid)
     dockerUploadUUID := some uuid },
   { s with uploads := fun u => if u = uuid then some upload else s.uploads u })

/-- Go `handleBlobUploadPatch` (PATCH /v2/{name}/blobs/uploads/{uuid}):
appends the request body to the session buffer and updates `Size`. -/
def handleBlobUploadPatch (s : RegState) (name uuid : String)
    (chunk : Bytes) : HttpOut × RegState :=
  match s.uploads uuid with
  | none => ({ status := 404, errorCode := some "BLOB_UPLOAD_UNKNOWN" }, s)
  | some upload =>
    let data1 := upload.data ++ chunk
    let upload1 : Upload := { upload with data := data1, size := data1.length }
    ({ status := 202
       location := some ("/v2/" ++ name ++ "/blobs/uploads/" ++ uuid)
       dockerUploadUUID := some uuid },
     { s with uploads := fun u => if u = uuid then some upload1 else s.uploads u })

/-- Go `handleBlobUploadPut` (PUT /v2/{name}/blobs/uploads/{uuid}?digest=).
`digestParam` is `req.URL.Query().Get("digest")`, which is "" when the
parameter is missing.  `chunk` is the request body; the Go guard
`req.ContentLength > 0` is modelled as `0 < chunk.length` (ContentLength
equals the body length for the clients modelled).  The append mutates the
stored session in place before the digest comparison, exactly as the Go
pointer update does. -/
def handleBlobUploadPut (hashHex : Bytes → String) (s : RegState)
    (name uuid digestParam : String) (chunk : Bytes) : HttpOut × RegState :=
  if digestParam = "" then
    ({ status := 400, errorCode := some "DIGEST_INVALID" }, s)
  else
    match s.uploads uuid with
    | none => ({ status := 404, errorCode := some "BLOB_UPLOAD_UNKNOWN" }, s)
    | some upload =>
      let data1 := if 0 < chunk.length then upload.data ++ chunk else upload.data
      let upload1 : Upload := { upload with data := data1 }
      let s1 : RegState :=
        { s with uploads := fun u => if u = uuid then some upload1 else s.uploads u }
      let actualDigest := "sha256:" ++ hashHex data1
      if actualDigest ≠ digestParam then
        ({ status := 400, errorCode := some "DIGEST_INVALID" }, s1)
      else
        let s2 : RegState :=
          { s1 with uploads := fun u => if u = uuid then none else s1.uploads u }
        let s3 : RegState :=
          { s2 with storage :=
              storeInsert s2.storage name (pathJoin "blobs" digestParam) data1 }
        ({ status := 201
           location := some ("/v2/" ++ name ++ "/blobs/" ++ digestParam)
           dockerContentDigest := some digestParam }, s3)

/-- Go `handleBlobUploadDelete` (DELETE /v2/{name}/blobs/uploads/{uuid}):
unconditionally drops the session (a no-op when absent) and returns 204. -/
def handleBlobUploadDelete (s : RegState) (uuid : String) :
    HttpOut × RegState :=
  ({ status := 204 },
   { s with uploads := fun u => if u = uuid then none else s.uploads u })

/-- A state-mutating registry request (the read-only handlers
`handleBase`, `handleCatalog`, `handleTagsList`, `handleManifestGet`,
`handleBlobGet`, `handleBlobUploadGet` return no new state by type). -/
inductive Action where
  | manifestPut (name reference : String) (body : Bytes) (contentTypeHeader : String)
  | manifestDelete (name reference : String)
  | blobDelete (name digest : String)
  | uploadPost (name uuid : String)
  | uploadPatch (name uuid : String) (chunk : Bytes)
  | uploadPut (name uuid digestParam : String) (chunk : Bytes)
  | uploadDelete (name uuid : String)
deriving DecidableEq, Repr

/-- The state transition performed by one request. -/
def step (hashHex : Bytes → String) (jsonParse : Bytes → Option ParsedManifest)
    (s : RegState) : Action → RegState
  | .manifestPut name reference body ct =>
      (handleManifestPut hashHex jsonParse s name reference body ct).2
  | .manifestDelete name reference => (handleManifestDelete s name reference).2
  | .blobDelete name digest => (handleBlobDelete s name digest).2
  | .uploadPost name uuid => (handleBlobUploadPost s name uuid).2
  | .uploadPatch name uuid chunk => (handleBlobUploadPatch s name uuid chunk).2
  | .uploadPut name uuid dp chunk =>
      (handleBlobUploadPut hashHex s name uuid dp chunk).2
  | .uploadDelete _ uuid => (handleBlobUploadDelete s uuid).2

/-- Run a sequence of requests from a state. -/
def run (hashHex : Bytes → String) (jsonParse : Bytes → Option ParsedManifest)
    (s : RegState) : List Action → RegState
  | [] => s
  | a :: rest => run hashHex jsonParse (step hashHex jsonParse s a) rest

/-- Content-addressing invariant of a storage map: everything held under a
`blobs/<d>` path digests to `d`. -/
def StorageOk (hashHex : Bytes → String)
    (st : String → String → Option Bytes) : Prop :=
  ∀ repo d content, st repo (pathJoin "blobs" d) = some content →
    "sha256:" ++ hashHex content = d

/-- Content-addressing invariant of the blob store of the registry state. -/
def BlobsOk (hashHex : Bytes → String) (s : RegState) : Prop :=
  StorageOk hashHex s.storage

/-! ## Registry Manager and Control API (internal/docker/manager.go,
internal/api/handler.go, internal/repository/manager.go) -/

/-- Go `models.DockerRepositoryConfig` (ports are Go `int`, non-negative in
every code path, so `Nat`). -/
structure DockerConfig where
  httpPort : Nat
  httpsPort : Nat
  v1Enabled : Bool
deriving DecidableEq, Repr

/-- Go `models.Repository`, the fields `CreateRepository` consults.
Timestamps and description are carried opaquely and never branched on. -/
inductive RepoType where
  | docker
  | raw
deriving DecidableEq, Repr

/-- A repository descriptor as persisted in the `repositories` bucket. -/
structure RepoDescriptor where
  name : String
  typ : RepoType
deriving DecidableEq, Repr

/-- `Manager.registries`: name → config of the running registry, as an
association list so port conflicts are decidable by scanning. -/
abbrev RegistryMap := List (String × DockerConfig)

/-- The port-collision scan shared by `Manager.StartRegistry` and
`Manager.IsPortInUse`: a declared non-zero port equals a running
corresponding port of a running registry. -/
def portConflict (regs : RegistryMap) (httpPort httpsPort : Nat) : Bool :=
  regs.any fun entry =>
    (decide (0 < httpPort) && decide (httpPort = entry.2.httpPort)) ||
    (decide (0 < httpsPort) && decide (httpsPort = entry.2.httpsPort))

/-- Go `Manager.StartRegistry`.  `listenErr` is an oracle for whether the
asynchronous `registry.Start` error was already on `errCh` when the
non-blocking select ran (the only nondeterminism in the function). -/
def startRegistry (regs : RegistryMap) (name : String) (cfg : DockerConfig)
    (listenErr : Bool) : Except String RegistryMap :=
  if (regs.lookup name).isSome then
    .error "registry already running"
  else if cfg.httpPort = 0 ∧ cfg.httpsPort = 0 then
    .error "either HTTPPort or HTTPSPort must be specified"
  else if portConflict regs cfg.httpPort cfg.httpsPort then
    .error "port conflict"
  else if listenErr then
    .error "failed to start registry"
  else
    .ok ((name, cfg) :: regs)

/-- The bbolt-backed descriptor bucket (`repository.Manager`), as a map
from name to descriptor. -/
abbrev RepoStore := String → Option RepoDescriptor

/-- Go `repository.Manager.Create`: `none` models `ErrRepositoryExists`
(JSON marshalling never fails on the values the model builds). -/
def repoCreate (rs : RepoStore) (repo : RepoDescriptor) : Option RepoStore :=
  if (rs repo.name).isSome then none
  else some (fun n => if n = repo.name then some repo else rs n)

/-- Go `repository.Manager.Delete`, as used on the rollback path where the
handler discards the returned error: remove the key if present. -/
def repoRemove (rs : RepoStore) (name : String) : RepoStore :=
  fun n => if n = name then none else rs n

/-- Control-plane state: descriptor bucket plus the running-registry map
of the docker manager. -/
structure ApiState where
  repoStore : RepoStore
  registries : RegistryMap

/-- The port defaulting in `Handler.CreateRepository` (handler.go:92-95):
when both declared ports are zero, substitute the default HTTP port 5000. -/
def normalizeDockerConfig (cfg : DockerConfig) : DockerConfig :=
  if cfg.httpPort = 0 ∧ cfg.httpsPort = 0 then { cfg with httpPort := 5000 }
  else cfg

/-- Go `Handler.CreateRepository` for a request whose JSON body decoded to
`repo` with docker config `cfg` (`cfg` is ignored for raw repositories;
a `none` body-decode and a missing config are outside the claims modelled here).
Returns the HTTP status and the new control-plane state. -/
def createRepository (st : ApiState) (repo : RepoDescriptor)
    (cfg : DockerConfig) (listenErr : Bool) : Nat × ApiState :=
  if repo.name = "" then (400, st)
  else
    match repo.typ with
    | .raw =>
      match repoCreate st.repoStore repo with
      | none => (409, st)
      | some rs1 => (201, { st with repoStore := rs1 })
    | .docker =>
      let cfg1 := normalizeDockerConfig cfg
      if portConflict st.registries cfg1.httpPort cfg1.httpsPort then (409, st)
      else
        match repoCreate st.repoStore repo with
        | none => (409, st)
        | some rs1 =>
          match startRegistry st.registries repo.name cfg1 listenErr with
          | .error _ =>
            (500, { st with repoStore := repoRemove rs1 repo.name })
          | .ok regs1 =>
            (201, { repoStore := rs1, registries := regs1 })

/-- Go `Handler.GetRepository` (GET /api/v1/repositories/{name}): 404 when
the descriptor bucket has no entry, else 200. -/
def getRepositoryStatus (rs : RepoStore) (name : String) : Nat :=
  match rs name with
  | none => 404
  | some _ => 200

/-- A persisted repository descriptor as seen by the server at boot:
name, kind, and the decoded docker config payload (consulted only for
docker repositories; a JSON unmarshal failure of the payload is outside
the model). -/
structure StoredRepo where
  name : String
  typ : RepoType
  config : DockerConfig
deriving DecidableEq, Repr

/-- Go `Server.setupDockerRegistryOnMainPort` (server.go:216-248): walk the
persisted descriptors in the order `repoMgr.List()` yields them; for the
first docker repository whose config declares both ports zero, mount its
registry router on the control-plane router under the /v2/ prefix and
break — so at most one repository ever occupies the main-port slot, and
later zero-port repositories are skipped, not rejected.  Returns the name
of the repository mounted under /v2/, if any. -/
def setupDockerRegistryOnMainPort : List StoredRepo → Option String
  | [] => none
  | r :: rest =>
    if r.typ = RepoType.docker ∧ r.config.httpPort = 0 ∧ r.config.httpsPort = 0 then
      some r.name
    else setupDockerRegistryOnMainPort rest

/-- The condition of server.go:227,235: a docker repository whose config
declares both ports zero, i.e. a candidate for the main-port mount. -/
def isMainPortCandidate (r : StoredRepo) : Bool :=
  decide (r.typ = RepoType.docker ∧ r.config.httpPort = 0 ∧ r.config.httpsPort = 0)

/-- A concrete digest function usable for evaluating the model: stands in
for the abstracted hex SHA-256 in witnesses (every theorem holds for all
digest functions). -/
def hashHex0 : Bytes → String := fun data => toString data.length

/-- A concrete manifest decoder for evaluating the model: decodes every
body, with a fixed media type. -/
def jsonParse0 : Bytes → Option ParsedManifest :=
  fun _ => some { mediaType := "application/vnd.oci.image.manifest.v1+json" }

/-! ## Helper lemmas -/

theorem sha256_append_ne_empty (x : String) : "sha256:" ++ x ≠ "" := by
  intro h
  have h2 := congrArg String.data h
  simp [String.data_append] at h2

theorem blobs_path_ne_manifests_path (d x : String) :
    pathJoin "blobs" d ≠ pathJoin "manifests" x := by
  intro h
  have h2 := congrArg String.data h
  simp [pathJoin, String.data_append] at h2

theorem blobs_path_inj {d e : String}
    (h : pathJoin "blobs" d = pathJoin "blobs" e) : d = e := by
  have h2 := congrArg String.data h
  simp [pathJoin, String.data_append] at h2
  exact String.ext h2

theorem isDigestRef_sha256_append (x : String) :
    isDigestRef ("sha256:" ++ x) = true := by
  simp [isDigestRef, String.data_append, List.isPrefixOf_iff_prefix]

theorem ne_digest_of_not_digestRef {t : String} (h : isDigestRef t = false)
    (x : String) : t ≠ "sha256:" ++ x := by
  intro he
  rw [he, isDigestRef_sha256_append] at h
  cases h

/-! ## Claim theorems -/

/-- C10: for every upload_id — also one that was never created or already
committed or aborted — DELETE /v2/{name}/blobs/uploads/{upload_id} returns
204 (never 404), removes at most the entry for that upload_id, and leaves
every other upload session, the manifest index and the storage backend
unchanged. -/
theorem uploadDelete_always_204_removes_at_most_one (s : RegState)
    (uuid : String) :
    (handleBlobUploadDelete s uuid).1.status = 204 ∧
    (handleBlobUploadDelete s uuid).1.errorCode = none ∧
    (handleBlobUploadDelete s uuid).2.uploads uuid = none ∧
    (∀ u, u ≠ uuid → (handleBlobUploadDelete s uuid).2.uploads u = s.uploads u) ∧
    (handleBlobUploadDelete s uuid).2.manifests = s.manifests ∧
    (handleBlobUploadDelete s uuid).2.storage = s.storage := by
  refine ⟨rfl, rfl, by simp [handleBlobUploadDelete], ?_, rfl, rfl⟩
  intro u hu
  simp [handleBlobUploadDelete, hu]

theorem uploadDelete_always_204_removes_at_most_one_witness :
    (handleBlobUploadDelete initState "u0").1.status = 204 ∧
    (handleBlobUploadDelete initState "u0").2.uploads "v0" = initState.uploads "v0" := by
  have h := uploadDelete_always_204_removes_at_most_one initState "u0"
  exact ⟨h.1, h.2.2.2.1 "v0" (by decide)⟩

/-- C5 counterexample: in a state where no blob exists at blobs/sha256:aa
for repository "repo", DELETE returns 202 with no error code — not 404
BLOB_UNKNOWN as the claim states (FileStorage.Delete swallows the
missing-file error). -/
theorem blobDelete_missing_counterexample :
    initState.storage "repo" (pathJoin "blobs" "sha256:aa") = none ∧
    (handleBlobDelete initState "repo" "sha256:aa").1.status = 202 ∧
    (handleBlobDelete initState "repo" "sha256:aa").1.status ≠ 404 ∧
    (handleBlobDelete initState "repo" "sha256:aa").1.errorCode = none :=
  ⟨rfl, rfl, by decide, rfl⟩

/-- C5 (amended): DELETE /v2/{name}/blobs/{digest} returns 202 whether or
not the blob exists (FileStorage.Delete treats a missing file as success,
so BLOB_UNKNOWN is unreachable absent I/O errors); it removes the blob at
blobs/{digest} when present and leaves every other storage key, the
manifest index and the upload table unchanged. -/
theorem blobDelete_always_202 (s : RegState) (name digest : String) :
    (handleBlobDelete s name digest).1.status = 202 ∧
    (handleBlobDelete s name digest).1.errorCode = none ∧
    (handleBlobDelete s name digest).2.storage name (pathJoin "blobs" digest) = none ∧
    (∀ r p, ¬(r = name ∧ p = pathJoin "blobs" digest) →
      (handleBlobDelete s name digest).2.storage r p = s.storage r p) ∧
    (handleBlobDelete s name digest).2.manifests = s.manifests ∧
    (handleBlobDelete s name digest).2.uploads = s.uploads := by
  refine ⟨rfl, rfl, by simp [handleBlobDelete, storeRemove], ?_, rfl, rfl⟩
  intro r p hrp
  simp [handleBlobDelete, storeRemove, hrp]

theorem blobDelete_always_202_witness :
    (handleBlobDelete initState "r0" "sha256:bb").1.status = 202 ∧
    (handleBlobDelete initState "r0" "sha256:bb").2.storage "r1" "q" =
      initState.storage "r1" "q" := by
  have h := blobDelete_always_202 initState "r0" "sha256:bb"
  exact ⟨h.1, h.2.2.2.1 "r1" "q" (by decide)⟩

/-- C3: a commit PUT on an open upload session whose digest parameter is
missing (the empty query value) or differs from
"sha256:" ++ hex(sha256(buffer)) — the buffer after the PUT body is
appended — returns DIGEST_INVALID with status 400, performs no store call
(the storage map is untouched), and leaves the session present in the
upload table. -/
theorem uploadPut_bad_digest_leaves_session (hashHex : Bytes → String)
    (s : RegState) (name uuid digestParam : String) (chunk : Bytes)
    (u : Upload) (hu : s.uploads uuid = some u)
    (hbad : digestParam = "" ∨
      digestParam ≠ "sha256:" ++ hashHex (if 0 < chunk.length then u.data ++ chunk else u.data)) :
    (handleBlobUploadPut hashHex s name uuid digestParam chunk).1.status = 400 ∧
    (handleBlobUploadPut hashHex s name uuid digestParam chunk).1.errorCode =
      some "DIGEST_INVALID" ∧
    (handleBlobUploadPut hashHex s name uuid digestParam chunk).2.storage = s.storage ∧
    ((handleBlobUploadPut hashHex s name uuid digestParam chunk).2.uploads uuid).isSome := by
  by_cases hempty : digestParam = ""
  · simp [handleBlobUploadPut, hempty, hu]
  · have hne : digestParam ≠ "sha256:" ++ hashHex (if 0 < chunk.length then u.data ++ chunk else u.data) := by
      rcases hbad with h | h
      · exact absurd h hempty
      · exact h
    simp only [handleBlobUploadPut, if_neg hempty, hu]
    rw [if_pos (fun he => hne he.symm)]
    simp

theorem uploadPut_bad_digest_leaves_session_witness :
    ((handleBlobUploadPut hashHex0
        (handleBlobUploadPost initState "repo0" "u7").2
        "repo0" "u7" "sha256:deadbeef" [1, 2]).1.status = 400) ∧
    (((handleBlobUploadPut hashHex0
        (handleBlobUploadPost initState "repo0" "u7").2
        "repo0" "u7" "sha256:deadbeef" [1, 2]).2.uploads "u7").isSome) := by
  have h := uploadPut_bad_digest_leaves_session hashHex0
    (handleBlobUploadPost initState "repo0" "u7").2
    "repo0" "u7" "sha256:deadbeef" [1, 2]
    { uuid := "u7", repoName := "repo0", size := 0, data := [] }
    (by simp [handleBlobUploadPost, initState])
    (Or.inr (by decide))
  exact ⟨h.1, h.2.2.2⟩

theorem uploadPatch_manifests_eq (s : RegState) (name uuid : String)
    (chunk : Bytes) :
    (handleBlobUploadPatch s name uuid chunk).2.manifests = s.manifests := by
  unfold handleBlobUploadPatch
  cases s.uploads uuid <;> rfl

theorem uploadPut_manifests_eq (hashHex : Bytes → String) (s : RegState)
    (name uuid dp : String) (chunk : Bytes) :
    (handleBlobUploadPut hashHex s name uuid dp chunk).2.manifests = s.manifests := by
  unfold handleBlobUploadPut
  split
  · rfl
  · cases s.uploads uuid
    · rfl
    · dsimp only
      split <;> split <;> rfl

theorem manifestPut_catalog_mono (hashHex : Bytes → String)
    (jsonParse : Bytes → Option ParsedManifest) (s : RegState)
    (nm ref : String) (body : Bytes) (ct q : String)
    (h : catalogHas s q = true) :
    catalogHas (handleManifestPut hashHex jsonParse s nm ref body ct).2 q = true := by
  unfold handleManifestPut
  rcases hp : jsonParse body with _ | p
  · simpa [hp] using h
  · simp only [catalogHas] at h ⊢
    by_cases hq : q = nm <;> simp [hq, h]

theorem manifestDelete_catalog_eq (s : RegState) (nm ref q : String) :
    catalogHas (handleManifestDelete s nm ref).2 q = catalogHas s q := by
  unfold handleManifestDelete
  rcases hm : s.manifests nm with _ | rm
  · simp [hm]
  · rcases hr : rm ref with _ | rec
    · simp [hm, hr]
    · simp only [hm, hr, catalogHas]
      by_cases hq : q = nm <;> simp [hq, hm]

/-- C9: the tags array of GET /v2/{name}/tags/list holds exactly the
references bound for that repo whose string does not begin with "sha256:";
and once a manifest PUT for a repository succeeds (201), that repository
appears in GET /v2/_catalog and remains there across every further
operation (a repository key is never removed from the index, so the
catalog contains every repository for which at least one manifest has been
stored). -/
theorem tagsList_excludes_digests_catalog_complete (hashHex : Bytes → String)
    (jsonParse : Bytes → Option ParsedManifest) :
    (∀ s name ref, tagsListHas s name ref = true ↔
      (manifestBinding s name ref).isSome = true ∧ isDigestRef ref = false) ∧
    (∀ s name reference body ct,
      (handleManifestPut hashHex jsonParse s name reference body ct).1.status = 201 →
      catalogHas (handleManifestPut hashHex jsonParse s name reference body ct).2 name = true) ∧
    (∀ s a name, catalogHas s name = true →
      catalogHas (step hashHex jsonParse s a) name = true) ∧
    (∀ s acts name, catalogHas s name = true →
      catalogHas (run hashHex jsonParse s acts) name = true) := by
  have hstep : ∀ s a name, catalogHas s name = true →
      catalogHas (step hashHex jsonParse s a) name = true := by
    intro s a name h
    cases a with
    | manifestPut n ref body ct =>
      exact manifestPut_catalog_mono hashHex jsonParse s n ref body ct name h
    | manifestDelete n ref =>
      simpa [step, manifestDelete_catalog_eq] using h
    | blobDelete n d => simpa [step, handleBlobDelete, catalogHas] using h
    | uploadPost n uuid => simpa [step, handleBlobUploadPost, catalogHas] using h
    | uploadPatch n uuid chunk =>
      simpa [step, catalogHas, uploadPatch_manifests_eq] using h
    | uploadPut n uuid dp chunk =>
      simpa [step, catalogHas, uploadPut_manifests_eq] using h
    | uploadDelete n uuid =>
      simpa [step, handleBlobUploadDelete, catalogHas] using h
  refine ⟨?_, ?_, hstep, ?_⟩
  · intro s name ref
    unfold tagsListHas manifestBinding
    cases s.manifests name <;> simp [and_comm]
  · intro s name reference body ct hput
    cases hp : jsonParse body with
    | none => simp [handleManifestPut, hp] at hput
    | some p => simp [handleManifestPut, hp, catalogHas]
  · intro s acts
    induction acts generalizing s with
    | nil => intro name h; simpa [run] using h
    | cons a rest ih =>
      intro name h
      exact ih (step hashHex jsonParse s a) name (hstep s a name h)

theorem tagsList_excludes_digests_catalog_complete_witness :
    (tagsListHas
      (handleManifestPut hashHex0 jsonParse0 initState "img" "v1.0" [123, 125] "ct").2
      "img" "v1.0" = true) ∧
    (catalogHas
      (run hashHex0 jsonParse0
        (handleManifestPut hashHex0 jsonParse0 initState "img" "v1.0" [123, 125] "ct").2
        [Action.manifestDelete "img" "v1.0"]) "img" = true) := by
  have h := tagsList_excludes_digests_catalog_complete hashHex0 jsonParse0
  constructor
  · exact (h.1 _ "img" "v1.0").2 (by decide)
  · exact h.2.2.2 _ [Action.manifestDelete "img" "v1.0"] "img" (h.2.1 initState "img" "v1.0" [123, 125] "ct" (by decide))

/-- C8: deleting an existing manifest binding removes only that binding:
the tag disappears from the tags list, every other reference of the repo
(in particular a digest binding created together with the tag) still
resolves to its record via GET, and bindings of other repos are untouched. -/
theorem manifestDelete_removes_only_reference (hashHex : Bytes → String)
    (s : RegState) (name T : String) (rm : String → Option Manifest)
    (rec : Manifest) (hrepo : s.manifests name = some rm)
    (hT : rm T = some rec) :
    (handleManifestDelete s name T).1.status = 202 ∧
    tagsListHas (handleManifestDelete s name T).2 name T = false ∧
    (∀ ref, ref ≠ T →
      manifestBinding (handleManifestDelete s name T).2 name ref = rm ref) ∧
    (∀ n, n ≠ name →
      (handleManifestDelete s name T).2.manifests n = s.manifests n) ∧
    (∀ d rec2, d ≠ T → rm d = some rec2 →
      (handleManifestGet hashHex (handleManifestDelete s name T).2 name d).status = 200 ∧
      (handleManifestGet hashHex (handleManifestDelete s name T).2 name d).body = rec2.raw) := by
  refine ⟨?_, ?_, ?_, ?_, ?_⟩
  · simp [handleManifestDelete, hrepo, hT]
  · simp [handleManifestDelete, hrepo, hT, tagsListHas]
  · intro ref href
    simp [handleManifestDelete, hrepo, hT, manifestBinding, href]
  · intro n hn
    simp [handleManifestDelete, hrepo, hT, hn]
  · intro d rec2 hd hrd
    simp [handleManifestDelete, hrepo, hT, handleManifestGet, hd, hrd]

theorem manifestDelete_removes_only_reference_witness :
    (handleManifestDelete
      (handleManifestPut hashHex0 jsonParse0 initState "img" "tag1" [123, 125] "ct").2
      "img" "tag1").1.status = 202 ∧
    (handleManifestGet hashHex0
      (handleManifestDelete
        (handleManifestPut hashHex0 jsonParse0 initState "img" "tag1" [123, 125] "ct").2
        "img" "tag1").2
      "img" ("sha256:" ++ hashHex0 [123, 125])).body = [123, 125] := by
  have h := manifestDelete_removes_only_reference hashHex0
    (handleManifestPut hashHex0 jsonParse0 initState "img" "tag1" [123, 125] "ct").2
    "img" "tag1"
    (fun ref => if ref = "sha256:" ++ hashHex0 [123, 125] then
        some { mediaType := "ct", raw := [123, 125] }
      else if ref = "tag1" then some { mediaType := "ct", raw := [123, 125] }
      else none)
    { mediaType := "ct", raw := [123, 125] }
    (by simp [handleManifestPut, jsonParse0, initState, isDigestRef, hashHex0])
    (by decide)
  exact ⟨h.1, (h.2.2.2.2 ("sha256:" ++ hashHex0 [123, 125])
    { mediaType := "ct", raw := [123, 125] } (by decide) (by decide)).2⟩

/-- C2: after a successful tag PUT of manifest body B with non-empty
Content-Type C, GET by the tag returns exactly B with Content-Type C and
status 200, and GET by the digest reference "sha256:"+hex(sha256(B))
returns the identical body: the record is addressable both ways. -/
theorem manifestPut_readable_by_tag_and_digest (hashHex : Bytes → String)
    (jsonParse : Bytes → Option ParsedManifest) (s : RegState)
    (name T : String) (body : Bytes) (C : String) (p : ParsedManifest)
    (hT : isDigestRef T = false) (hC : C ≠ "") (hparse : jsonParse body = some p) :
    (handleManifestPut hashHex jsonParse s name T body C).1.status = 201 ∧
    (handleManifestGet hashHex
      (handleManifestPut hashHex jsonParse s name T body C).2 name T).status = 200 ∧
    (handleManifestGet hashHex
      (handleManifestPut hashHex jsonParse s name T body C).2 name T).body = body ∧
    (handleManifestGet hashHex
      (handleManifestPut hashHex jsonParse s name T body C).2 name T).contentType = some C ∧
    (handleManifestGet hashHex
      (handleManifestPut hashHex jsonParse s name T body C).2 name
      ("sha256:" ++ hashHex body)).status = 200 ∧
    (handleManifestGet hashHex
      (handleManifestPut hashHex jsonParse s name T body C).2 name
      ("sha256:" ++ hashHex body)).body = body := by
  have hTd : T ≠ "sha256:" ++ hashHex body := ne_digest_of_not_digestRef hT _
  refine ⟨?_, ?_, ?_, ?_, ?_, ?_⟩ <;>
    simp [handleManifestPut, handleManifestGet, hparse, hC, hT, hTd]

theorem manifestPut_readable_by_tag_and_digest_witness :
    (handleManifestPut hashHex0 jsonParse0 initState "img" "v1.0" [123, 125]
      "application/vnd.docker.distribution.manifest.v2+json").1.status = 201 ∧
    (handleManifestGet hashHex0
      (handleManifestPut hashHex0 jsonParse0 initState "img" "v1.0" [123, 125]
        "application/vnd.docker.distribution.manifest.v2+json").2
      "img" "v1.0").body = [123, 125] ∧
    (handleManifestGet hashHex0
      (handleManifestPut hashHex0 jsonParse0 initState "img" "v1.0" [123, 125]
        "application/vnd.docker.distribution.manifest.v2+json").2
      "img" ("sha256:" ++ hashHex0 [123, 125])).body = [123, 125] := by
  have h := manifestPut_readable_by_tag_and_digest hashHex0 jsonParse0 initState
    "img" "v1.0" [123, 125] "application/vnd.docker.distribution.manifest.v2+json"
    { mediaType := "application/vnd.oci.image.manifest.v1+json" }
    (by decide) (by decide) rfl
  exact ⟨h.1, h.2.2.1, h.2.2.2.2.2⟩

theorem storageOk_insert_manifests (hashHex : Bytes → String)
    {st : String → String → Option Bytes} (h : StorageOk hashHex st)
    (n x : String) (body : Bytes) :
    StorageOk hashHex (storeInsert st n (pathJoin "manifests" x) body) := by
  intro repo d content hc
  unfold storeInsert at hc
  rw [if_neg] at hc
  · exact h repo d content hc
  · rintro ⟨-, hpath⟩
    exact blobs_path_ne_manifests_path d x hpath

theorem storageOk_insert_blob (hashHex : Bytes → String)
    {st : String → String → Option Bytes} (h : StorageOk hashHex st)
    (n D : String) (data : Bytes) (hD : "sha256:" ++ hashHex data = D) :
    StorageOk hashHex (storeInsert st n (pathJoin "blobs" D) data) := by
  intro repo d content hc
  unfold storeInsert at hc
  split at hc
  · next hk =>
    cases hc
    rw [hD]
    exact (blobs_path_inj hk.2).symm
  · exact h repo d content hc

theorem storageOk_remove (hashHex : Bytes → String)
    {st : String → String → Option Bytes} (h : StorageOk hashHex st)
    (n p : String) : StorageOk hashHex (storeRemove st n p) := by
  intro repo d content hc
  unfold storeRemove at hc
  split at hc
  · cases hc
  · exact h repo d content hc

theorem manifestPut_storage_cases (hashHex : Bytes → String)
    (jsonParse : Bytes → Option ParsedManifest) (s : RegState)
    (n ref : String) (body : Bytes) (ct : String) :
    (handleManifestPut hashHex jsonParse s n ref body ct).2.storage = s.storage ∨
    (handleManifestPut hashHex jsonParse s n ref body ct).2.storage =
      storeInsert s.storage n
        (pathJoin "manifests" ("sha256:" ++ hashHex body)) body := by
  unfold handleManifestPut
  rcases jsonParse body with _ | p
  · exact Or.inl rfl
  · exact Or.inr rfl

theorem manifestDelete_storage_cases (s : RegState) (n ref : String) :
    (handleManifestDelete s n ref).2.storage = s.storage ∨
    (handleManifestDelete s n ref).2.storage =
      storeRemove s.storage n (pathJoin "manifests" ref) := by
  unfold handleManifestDelete
  rcases hm : s.manifests n with _ | rm
  · exact Or.inl rfl
  · dsimp only
    rcases hr : rm ref with _ | rec
    · exact Or.inl rfl
    · exact Or.inr rfl

theorem uploadPatch_storage_eq (s : RegState) (name uuid : String)
    (chunk : Bytes) :
    (handleBlobUploadPatch s name uuid chunk).2.storage = s.storage := by
  unfold handleBlobUploadPatch
  cases s.uploads uuid <;> rfl

theorem uploadPut_storage_cases (hashHex : Bytes → String) (s : RegState)
    (name uuid dp : String) (chunk : Bytes) :
    (handleBlobUploadPut hashHex s name uuid dp chunk).2.storage = s.storage ∨
    ∃ data1, "sha256:" ++ hashHex data1 = dp ∧
      (handleBlobUploadPut hashHex s name uuid dp chunk).2.storage =
        storeInsert s.storage name (pathJoin "blobs" dp) data1 := by
  unfold handleBlobUploadPut
  by_cases hdp : dp = ""
  · simp [hdp]
  · rw [if_neg hdp]
    rcases s.uploads uuid with _ | u
    · exact Or.inl rfl
    · dsimp only
      by_cases hd :
          "sha256:" ++ hashHex (if 0 < chunk.length then u.data ++ chunk else u.data) = dp
      · rw [if_neg (not_not_intro hd)]
        exact Or.inr ⟨_, hd, rfl⟩
      · rw [if_pos hd]
        exact Or.inl rfl

/-- C1: a commit PUT whose digest parameter equals
"sha256:" ++ hex(sha256(B)) for the accumulated buffer B (after the PUT
body is appended) succeeds with 201, stores B under blobs/D for the named
repo, and a subsequent GET /v2/{name}/blobs/D returns exactly B with
status 200; moreover every state reachable from a fresh registry satisfies
the content-addressing invariant: a blob held under blobs/D digests to D. -/
theorem blob_commit_roundtrip_and_digest_invariant (hashHex : Bytes → String)
    (jsonParse : Bytes → Option ParsedManifest) :
    (∀ s name uuid chunk u data1 D, s.uploads uuid = some u →
      data1 = (if 0 < chunk.length then u.data ++ chunk else u.data) →
      D = "sha256:" ++ hashHex data1 →
      (handleBlobUploadPut hashHex s name uuid D chunk).1.status = 201 ∧
      (handleBlobUploadPut hashHex s name uuid D chunk).2.storage name
        (pathJoin "blobs" D) = some data1 ∧
      (handleBlobGet (handleBlobUploadPut hashHex s name uuid D chunk).2
        name D).status = 200 ∧
      (handleBlobGet (handleBlobUploadPut hashHex s name uuid D chunk).2
        name D).body = data1) ∧
    (∀ s a, BlobsOk hashHex s → BlobsOk hashHex (step hashHex jsonParse s a)) ∧
    (∀ acts, BlobsOk hashHex (run hashHex jsonParse initState acts)) := by
  have hstep : ∀ s a, BlobsOk hashHex s → BlobsOk hashHex (step hashHex jsonParse s a) := by
    intro s a h
    cases a with
    | manifestPut n ref body ct =>
      rcases manifestPut_storage_cases hashHex jsonParse s n ref body ct with he | he
      · exact fun repo d c hc => h repo d c (by rwa [step, he] at hc)
      · intro repo d c hc
        rw [step, he] at hc
        exact storageOk_insert_manifests hashHex h n _ body repo d c hc
    | manifestDelete n ref =>
      rcases manifestDelete_storage_cases s n ref with he | he
      · exact fun repo d c hc => h repo d c (by rwa [step, he] at hc)
      · intro repo d c hc
        rw [step, he] at hc
        exact storageOk_remove hashHex h n _ repo d c hc
    | blobDelete n dgt =>
      intro repo d c hc
      exact storageOk_remove hashHex h n _ repo d c hc
    | uploadPost n uuid => exact h
    | uploadPatch n uuid chunk =>
      intro repo d c hc
      rw [step, uploadPatch_storage_eq] at hc
      exact h repo d c hc
    | uploadPut n uuid dp chunk =>
      rcases uploadPut_storage_cases hashHex s n uuid dp chunk with he | ⟨data1, hdig, he⟩
      · exact fun repo d c hc => h repo d c (by rwa [step, he] at hc)
      · intro repo d c hc
        rw [step, he] at hc
        exact storageOk_insert_blob hashHex h n dp data1 hdig repo d c hc
    | uploadDelete n uuid => exact h
  refine ⟨?_, hstep, ?_⟩
  · intro s name uuid chunk u data1 D hu hdata hD
    subst hdata
    subst hD
    have hcommit :
        handleBlobUploadPut hashHex s name uuid
          ("sha256:" ++ hashHex (if 0 < chunk.length then u.data ++ chunk else u.data)) chunk =
        ({ status := 201
           location := some ("/v2/" ++ name ++ "/blobs/" ++
             ("sha256:" ++ hashHex (if 0 < chunk.length then u.data ++ chunk else u.data)))
           dockerContentDigest := some
             ("sha256:" ++ hashHex (if 0 < chunk.length then u.data ++ chunk else u.data)) },
         { manifests := s.manifests
           uploads := fun v => if v = uuid then none else
             (fun v => if v = uuid then
                some { u with data := if 0 < chunk.length then u.data ++ chunk else u.data }
              else s.uploads v) v
           storage := storeInsert s.storage name
             (pathJoin "blobs"
               ("sha256:" ++ hashHex (if 0 < chunk.length then u.data ++ chunk else u.data)))
             (if 0 < chunk.length then u.data ++ chunk else u.data) }) := by
      unfold handleBlobUploadPut
      rw [if_neg (sha256_append_ne_empty _), hu]
      dsimp only
      rw [if_neg (not_not_intro rfl)]
    rw [hcommit]
    refine ⟨rfl, ?_, ?_, ?_⟩ <;> simp [handleBlobGet, storeInsert]
  · have hinit : BlobsOk hashHex initState := by
      intro repo d c hc
      cases hc
    intro acts
    have hgen : ∀ s, BlobsOk hashHex s →
        BlobsOk hashHex (run hashHex jsonParse s acts) := by
      induction acts with
      | nil => intro s h; exact h
      | cons a rest ih => intro s h; exact ih _ (hstep s a h)
    exact hgen initState hinit

theorem blob_commit_roundtrip_and_digest_invariant_witness :
    ((handleBlobUploadPut hashHex0
        (handleBlobUploadPost initState "x" "u1").2
        "x" "u1" ("sha256:" ++ hashHex0 [7, 8]) [7, 8]).1.status = 201) ∧
    ((handleBlobGet
        (handleBlobUploadPut hashHex0
          (handleBlobUploadPost initState "x" "u1").2
          "x" "u1" ("sha256:" ++ hashHex0 [7, 8]) [7, 8]).2
        "x" ("sha256:" ++ hashHex0 [7, 8])).body = [7, 8]) ∧
    "sha256:" ++ hashHex0 [7, 8] = "sha256:2" := by
  have h := blob_commit_roundtrip_and_digest_invariant hashHex0 jsonParse0
  have h1 := h.1 (handleBlobUploadPost initState "x" "u1").2 "x" "u1" [7, 8]
    { uuid := "u1", repoName := "x", size := 0, data := [] }
    [7, 8] ("sha256:" ++ hashHex0 [7, 8])
    (by simp [handleBlobUploadPost, initState]) (by decide) rfl
  have h3 := h.2.2 [Action.uploadPost "x" "u1",
    Action.uploadPut "x" "u1" ("sha256:" ++ hashHex0 [7, 8]) [7, 8]]
    "x" "sha256:2" [7, 8] (by decide)
  exact ⟨h1.1, h1.2.2.2, h3⟩

/-- Replace the recorded `RepoName` of the session stored under `uuid`
(used to show the handlers never consult that field). -/
def setUploadRepoName (s : RegState) (uuid rn : String) : RegState :=
  { s with uploads := fun u =>
      if u = uuid then (s.uploads u).map (fun up => { up with repoName := rn })
      else s.uploads u }

/-- C4 counterexample: an upload session created by POST under repository
"repoA" (its recorded repo_name is "repoA") is committed by a PUT
addressed to repository "repoB" with the same upload_id; the commit
succeeds with 201 and stores the blob under "repoB" — the upload_id is not
bound to the repository it was created for. -/
theorem upload_session_repo_binding_counterexample :
    (((handleBlobUploadPost initState "repoA" "u1").2.uploads "u1").map
        Upload.repoName = some "repoA") ∧
    ((handleBlobUploadPut hashHex0 (handleBlobUploadPost initState "repoA" "u1").2
        "repoB" "u1" ("sha256:" ++ hashHex0 []) []).1.status = 201) ∧
    ((handleBlobUploadPut hashHex0 (handleBlobUploadPost initState "repoA" "u1").2
        "repoB" "u1" ("sha256:" ++ hashHex0 []) []).2.storage "repoB"
        (pathJoin "blobs" ("sha256:" ++ hashHex0 [])) = some []) ∧
    ("repoA" : String) ≠ "repoB" := by
  refine ⟨rfl, ?_, ?_, by decide⟩ <;>
    simp [handleBlobUploadPost, handleBlobUploadPut, initState, hashHex0,
      storeInsert, sha256_append_ne_empty]

/-- C4 (amended): an upload session records the repo_name it was created
for, but the handlers never consult it: a commit PUT looks the session up
by upload_id alone, behaves identically whatever repo_name the session
records, and on success stores the blob into the repository named in the
request URL (which may differ from the repo_name of the session) and removes
the session. -/
theorem uploadPut_uses_url_repo_not_session_repo (hashHex : Bytes → String) :
    (∀ s name uuid dp rn (chunk : Bytes),
      (handleBlobUploadPut hashHex (setUploadRepoName s uuid rn) name uuid dp chunk).1 =
        (handleBlobUploadPut hashHex s name uuid dp chunk).1 ∧
      (handleBlobUploadPut hashHex (setUploadRepoName s uuid rn) name uuid dp chunk).2.storage =
        (handleBlobUploadPut hashHex s name uuid dp chunk).2.storage) ∧
    (∀ s name uuid chunk u data1 D, s.uploads uuid = some u →
      data1 = (if 0 < chunk.length then u.data ++ chunk else u.data) →
      D = "sha256:" ++ hashHex data1 →
      (handleBlobUploadPut hashHex s name uuid D chunk).2.storage name
        (pathJoin "blobs" D) = some data1 ∧
      (handleBlobUploadPut hashHex s name uuid D chunk).2.uploads uuid = none) := by
  constructor
  · intro s name uuid dp rn chunk
    by_cases hdp : dp = ""
    · simp [handleBlobUploadPut, hdp, setUploadRepoName]
    · rcases hu : s.uploads uuid with _ | u
      · simp [handleBlobUploadPut, hdp, hu, setUploadRepoName]
      · simp only [handleBlobUploadPut, hdp, hu, setUploadRepoName]
        simp [hdp, hu]
        constructor
        · split <;> split <;> rfl
        · split <;> split <;> rfl
  · intro s name uuid chunk u data1 D hu hdata hD
    subst hdata
    subst hD
    unfold handleBlobUploadPut
    rw [if_neg (sha256_append_ne_empty _), hu]
    dsimp only
    rw [if_neg (not_not_intro rfl)]
    refine ⟨by simp [storeInsert], by simp⟩

theorem uploadPut_uses_url_repo_not_session_repo_witness :
    ((handleBlobUploadPut hashHex0
        (setUploadRepoName (handleBlobUploadPost initState "repoA" "u2").2 "u2" "other")
        "repoB" "u2" "sha256:9" []).1 =
      (handleBlobUploadPut hashHex0 (handleBlobUploadPost initState "repoA" "u2").2
        "repoB" "u2" "sha256:9" []).1) ∧
    ((handleBlobUploadPut hashHex0 (handleBlobUploadPost initState "repoA" "u2").2
        "repoB" "u2" ("sha256:" ++ hashHex0 [3]) [3]).2.uploads "u2" = none) := by
  have h := uploadPut_uses_url_repo_not_session_repo hashHex0
  refine ⟨(h.1 (handleBlobUploadPost initState "repoA" "u2").2 "repoB" "u2" "sha256:9" "other" []).1, ?_⟩
  exact (h.2 (handleBlobUploadPost initState "repoA" "u2").2 "repoB" "u2" [3]
    { uuid := "u2", repoName := "repoA", size := 0, data := [] }
    [3] ("sha256:" ++ hashHex0 [3])
    (by simp [handleBlobUploadPost, initState]) (by decide) rfl).2

/-- C6 counterexample: the very first registration with
http_port == 0 and https_port == 0 is rejected by Manager.StartRegistry —
the Registry Manager does not accept it, contrary to the claim; the slot
is filled elsewhere, by the server at boot — and CreateRepository in the
Control API replaces a both-zero configuration with the default
http_port 5000 before starting. -/
theorem zero_port_registration_counterexample :
    ((startRegistry [] "reg0" { httpPort := 0, httpsPort := 0, v1Enabled := false }
        false).toOption = none) ∧
    (normalizeDockerConfig { httpPort := 0, httpsPort := 0, v1Enabled := false } =
      { httpPort := 5000, httpsPort := 0, v1Enabled := false }) := by
  exact ⟨rfl, rfl⟩

/-- C6 (amended): at most one docker repository occupies the main-port
mount slot, but not through the Registry Manager: Manager.StartRegistry
fails for every configuration with both ports zero, and the Control API
substitutes the default http_port 5000 when both declared ports are zero,
so no both-zero registration is accepted at runtime.  The slot is filled
at boot instead: setupDockerRegistryOnMainPort mounts under /v2/ exactly
the first persisted docker repository declaring both ports zero (and only
that one — later candidates are skipped, not rejected). -/
theorem main_port_slot_filled_at_boot_not_by_manager (regs : RegistryMap)
    (name : String) (cfg : DockerConfig) (listenErr : Bool)
    (h0 : cfg.httpPort = 0) (h1 : cfg.httpsPort = 0) :
    ((startRegistry regs name cfg listenErr).toOption = none) ∧
    (∀ b, normalizeDockerConfig { httpPort := 0, httpsPort := 0, v1Enabled := b } =
      { httpPort := 5000, httpsPort := 0, v1Enabled := b }) ∧
    (∀ repos : List StoredRepo, setupDockerRegistryOnMainPort repos =
      (repos.find? isMainPortCandidate).map StoredRepo.name) := by
  refine ⟨?_, fun b => by simp [normalizeDockerConfig], ?_⟩
  · unfold startRegistry
    by_cases hex : (regs.lookup name).isSome
    · simp [hex, Except.toOption]
    · simp [hex, h0, h1, Except.toOption]
  · intro repos
    induction repos with
    | nil => rfl
    | cons r rest ih =>
      by_cases hr : r.typ = RepoType.docker ∧ r.config.httpPort = 0 ∧
          r.config.httpsPort = 0
      · rw [setupDockerRegistryOnMainPort, if_pos hr,
          List.find?_cons_of_pos _ (by simpa [isMainPortCandidate] using hr)]
        rfl
      · rw [setupDockerRegistryOnMainPort, if_neg hr,
          List.find?_cons_of_neg _ (by simpa [isMainPortCandidate] using hr)]
        exact ih

theorem main_port_slot_filled_at_boot_not_by_manager_witness :
    ((startRegistry [("a", { httpPort := 8080, httpsPort := 0, v1Enabled := false })]
      "b" { httpPort := 0, httpsPort := 0, v1Enabled := true } true).toOption = none) ∧
    (setupDockerRegistryOnMainPort
      [{ name := "raw0", typ := RepoType.raw,
         config := { httpPort := 0, httpsPort := 0, v1Enabled := false } },
       { name := "ported", typ := RepoType.docker,
         config := { httpPort := 8080, httpsPort := 0, v1Enabled := false } },
       { name := "mainone", typ := RepoType.docker,
         config := { httpPort := 0, httpsPort := 0, v1Enabled := false } },
       { name := "later", typ := RepoType.docker,
         config := { httpPort := 0, httpsPort := 0, v1Enabled := false } }] =
      some "mainone") := by
  have h := main_port_slot_filled_at_boot_not_by_manager
    [("a", { httpPort := 8080, httpsPort := 0, v1Enabled := false })]
    "b" { httpPort := 0, httpsPort := 0, v1Enabled := true } true rfl rfl
  refine ⟨h.1, ?_⟩
  rw [h.2.2]
  decide

/-- C7: when CreateRepository persists a docker repository descriptor but
the registry fails to start, the descriptor is rolled back (deleted from
the store), the call returns 500, and a subsequent GetRepository for that
name returns 404. -/
theorem createRepository_rollback_on_start_failure (st : ApiState)
    (repo : RepoDescriptor) (cfg : DockerConfig) (listenErr : Bool)
    (htyp : repo.typ = RepoType.docker) (hname : repo.name ≠ "")
    (hnew : st.repoStore repo.name = none)
    (hconflict : portConflict st.registries (normalizeDockerConfig cfg).httpPort
      (normalizeDockerConfig cfg).httpsPort = false)
    (hfail : (startRegistry st.registries repo.name (normalizeDockerConfig cfg)
      listenErr).toOption = none) :
    ((createRepository st repo cfg listenErr).1 = 500) ∧
    ((createRepository st repo cfg listenErr).2.repoStore repo.name = none) ∧
    (getRepositoryStatus (createRepository st repo cfg listenErr).2.repoStore
      repo.name = 404) := by
  rcases hs : startRegistry st.registries repo.name (normalizeDockerConfig cfg)
      listenErr with e | regs
  · simp [createRepository, hname, htyp, hconflict, repoCreate, hnew, hs,
      repoRemove, getRepositoryStatus]
  · rw [hs] at hfail
    simp [Except.toOption] at hfail

theorem createRepository_rollback_on_start_failure_witness :
    ((createRepository { repoStore := fun _ => none, registries := [] }
        { name := "r7", typ := RepoType.docker }
        { httpPort := 8080, httpsPort := 0, v1Enabled := false } true).1 = 500) ∧
    (getRepositoryStatus
      (createRepository { repoStore := fun _ => none, registries := [] }
        { name := "r7", typ := RepoType.docker }
        { httpPort := 8080, httpsPort := 0, v1Enabled := false } true).2.repoStore
      "r7" = 404) := by
  have h := createRepository_rollback_on_start_failure
    { repoStore := fun _ => none, registries := [] }
    { name := "r7", typ := RepoType.docker }
    { httpPort := 8080, httpsPort := 0, v1Enabled := false } true
    rfl (by decide) rfl (by decide) (by decide)
  exact ⟨h.1, h.2.2⟩

end Depot
